import Mathlib

/-!
Verification development for the region-helper outline pipeline.

This file gives a shallow embedding of the modifier-extraction subsystem
(src/lib/symbolModifiers), of the tree-item id assignment
(src/treeView/fullTreeView), and of the `FullOutlineStore` synchronization
logic, and proves the specified properties about them.

Text is modelled as `List Char` (the character sequence of a JS string).
JS regular expressions used by the source are all of the shapes
`\bKEYWORD\b` (case-insensitive, word-bounded), `@KEYWORD` and
`\[KEYWORD\]` (case-insensitive substring), and `^[\s]*[}\])]`; each is
embedded as an executable matcher below.
-/

abbrev Str := List Char

/-- Coercion from a Lean string literal to the character-list model. -/
def str (s : String) : Str := s.data

/-- Word characters of the JS regex class `\w` = [A-Za-z0-9_],
expressed on code points. -/
def isWordChar (c : Char) : Bool :=
  let n := c.toNat
  (65 ≤ n && n ≤ 90) || (97 ≤ n && n ≤ 122) || (48 ≤ n && n ≤ 57) || (n == 95)

/-- ASCII case folding on code points: the canonicalization performed by a
case-insensitive (`i` flag) JS regex on the ASCII keywords used here. -/
def foldNat (c : Char) : Nat :=
  if 65 ≤ c.toNat ∧ c.toNat ≤ 90 then c.toNat + 32 else c.toNat

/-- Case-insensitive character comparison. -/
def ciEq (a b : Char) : Bool := foldNat a == foldNat b

/-- Pointwise case-insensitive equality of two texts. -/
def ciEqList : Str → Str → Bool
  | [], [] => true
  | a :: as, b :: bs => ciEq a b && ciEqList as bs
  | _, _ => false

/-- Is the (possibly absent) character a word character? An absent
character (start or end of the text) counts as a non-word position. -/
def wordAt : Option Char → Bool
  | none => false
  | some c => isWordChar c

/-- The JS regex word boundary `\b` between two adjacent positions:
exactly one side is a word character. -/
def isBoundary (a b : Option Char) : Bool := wordAt a != wordAt b

/-- Does `kw` match case-insensitively at the start of `text`, with a word
boundary `\b` after the match?  `last` is the character just before the
remaining text (used for the boundary when the keyword is exhausted). -/
def matchRest (kw : Str) (last : Option Char) (text : Str) : Bool :=
  match kw with
  | [] => isBoundary last text.head?
  | k :: ks =>
    match text with
    | [] => false
    | t :: ts => ciEq k t && matchRest ks (some t) ts

/-- Test of the regex `\bKW\b` (case-insensitive) against `text`, scanning
all start positions; `prev` is the character before the current position. -/
def containsWBAux (kw : Str) (prev : Option Char) (text : Str) : Bool :=
  (isBoundary prev text.head? && matchRest kw prev text) ||
    match text with
    | [] => false
    | t :: ts => containsWBAux kw (some t) ts

/-- Test of the word-bounded case-insensitive regex which extractVisibility
and extractMemberModifiers build from a keyword (backslash-b, the escaped
keyword, backslash-b, with the i flag). -/
def containsWB (kw text : Str) : Bool := containsWBAux kw none text

/-- Case-insensitive prefix test. -/
def isPrefixCI : Str → Str → Bool
  | [], _ => true
  | _ :: _, [] => false
  | k :: ks, t :: ts => ciEq k t && isPrefixCI ks ts

/-- Case-insensitive substring test (a JS regex of the escaped literal
`kw` with the `i` flag and no anchors, as used for the decorator form
at-KEYWORD and the attribute form bracket-KEYWORD-bracket). -/
def containsCI (kw : Str) (text : Str) : Bool :=
  isPrefixCI kw text ||
    match text with
    | [] => false
    | _ :: ts => containsCI kw ts

-- #region Symbol modifier data model (src/lib/symbolModifiers/SymbolModifiers.ts)

/-- VisibilityModifier union type of SymbolModifiers.ts. -/
inductive VisibilityModifier where
  | vpublic
  | vprivate
  | vprotected
  | vinternal
  | vprotectedInternal
  | vprivateProtected
  | vpackage
  | vdefault
deriving DecidableEq, Repr

/-- MemberModifiers record of SymbolModifiers.ts. -/
structure MemberModifiers where
  isStatic : Bool
  isReadonly : Bool
  isConst : Bool
  isAbstract : Bool
  isVirtual : Bool
  isOverride : Bool
  isAsync : Bool
  isSealed : Bool
  isExternC : Bool
  isVolatile : Bool
  isNew : Bool
deriving DecidableEq, Repr

/-- SymbolModifiers record of SymbolModifiers.ts. -/
structure SymbolModifiers where
  visibility : VisibilityModifier
  memberModifiers : MemberModifiers
deriving DecidableEq, Repr

/-- getDefaultModifiers of SymbolModifiers.ts. -/
def getDefaultModifiers : SymbolModifiers :=
  { visibility := VisibilityModifier.vdefault
    memberModifiers :=
      { isStatic := false
        isReadonly := false
        isConst := false
        isAbstract := false
        isVirtual := false
        isOverride := false
        isAsync := false
        isSealed := false
        isExternC := false
        isVolatile := false
        isNew := false } }

/-- SymbolModifiers is inhabited (by the defaults). -/
instance : Nonempty SymbolModifiers := ⟨getDefaultModifiers⟩

-- #endregion

-- #region Pattern tables (extractSymbolModifiers.ts)

/-- ModifierPatternConfig: per-language keyword tables.  JS object literals
preserve insertion order for string keys, so the two keyword tables are
modelled as association lists in source order. -/
structure ModifierPatternConfig where
  languages : List String
  visibilityKeywords : List (String × VisibilityModifier)
  memberKeywords : List (String × List String)

/-- csharpPatterns table. -/
def csharpPatterns : ModifierPatternConfig :=
  { languages := ["csharp"]
    visibilityKeywords :=
      [ ("public", VisibilityModifier.vpublic)
      , ("private", VisibilityModifier.vprivate)
      , ("protected", VisibilityModifier.vprotected)
      , ("internal", VisibilityModifier.vinternal)
      , ("protected internal", VisibilityModifier.vprotectedInternal)
      , ("internal protected", VisibilityModifier.vprotectedInternal)
      , ("private protected", VisibilityModifier.vprivateProtected)
      , ("protected private", VisibilityModifier.vprivateProtected) ]
    memberKeywords :=
      [ ("isStatic", ["static"])
      , ("isReadonly", ["readonly"])
      , ("isConst", ["const"])
      , ("isAbstract", ["abstract"])
      , ("isVirtual", ["virtual"])
      , ("isOverride", ["override"])
      , ("isAsync", ["async"])
      , ("isSealed", ["sealed"])
      , ("isExternC", ["extern"])
      , ("isVolatile", ["volatile"])
      , ("isNew", ["new"]) ] }

/-- javaPatterns table. -/
def javaPatterns : ModifierPatternConfig :=
  { languages := ["java"]
    visibilityKeywords :=
      [ ("public", VisibilityModifier.vpublic)
      , ("private", VisibilityModifier.vprivate)
      , ("protected", VisibilityModifier.vprotected) ]
    memberKeywords :=
      [ ("isStatic", ["static"])
      , ("isConst", ["final"])
      , ("isAbstract", ["abstract"])
      , ("isVolatile", ["volatile"])
      , ("isSealed", ["sealed"]) ] }

/-- kotlinPatterns table. -/
def kotlinPatterns : ModifierPatternConfig :=
  { languages := ["kotlin"]
    visibilityKeywords :=
      [ ("public", VisibilityModifier.vpublic)
      , ("private", VisibilityModifier.vprivate)
      , ("protected", VisibilityModifier.vprotected)
      , ("internal", VisibilityModifier.vinternal) ]
    memberKeywords :=
      [ ("isStatic", ["companion"])
      , ("isConst", ["const", "val"])
      , ("isAbstract", ["abstract"])
      , ("isOverride", ["override"])
      , ("isSealed", ["sealed"]) ] }

/-- typescriptPatterns table. -/
def typescriptPatterns : ModifierPatternConfig :=
  { languages := ["typescript", "typescriptreact", "javascript", "javascriptreact"]
    visibilityKeywords :=
      [ ("public", VisibilityModifier.vpublic)
      , ("private", VisibilityModifier.vprivate)
      , ("protected", VisibilityModifier.vprotected) ]
    memberKeywords :=
      [ ("isStatic", ["static"])
      , ("isReadonly", ["readonly"])
      , ("isConst", ["const"])
      , ("isAbstract", ["abstract"])
      , ("isAsync", ["async"])
      , ("isOverride", ["override"]) ] }

/-- cppPatterns table. -/
def cppPatterns : ModifierPatternConfig :=
  { languages := ["cpp", "c"]
    visibilityKeywords :=
      [ ("public", VisibilityModifier.vpublic)
      , ("private", VisibilityModifier.vprivate)
      , ("protected", VisibilityModifier.vprotected) ]
    memberKeywords :=
      [ ("isStatic", ["static"])
      , ("isConst", ["const", "constexpr"])
      , ("isVirtual", ["virtual"])
      , ("isOverride", ["override"])
      , ("isVolatile", ["volatile"])
      , ("isExternC", ["extern"]) ] }

/-- pythonPatterns table (no visibility keywords). -/
def pythonPatterns : ModifierPatternConfig :=
  { languages := ["python"]
    visibilityKeywords := []
    memberKeywords :=
      [ ("isStatic", ["@staticmethod", "@classmethod"])
      , ("isAbstract", ["@abstractmethod"])
      , ("isAsync", ["async"]) ] }

/-- allPatternConfigs list, in source order. -/
def allPatternConfigs : List ModifierPatternConfig :=
  [csharpPatterns, javaPatterns, kotlinPatterns, typescriptPatterns, cppPatterns, pythonPatterns]

/-- getPatternConfig: first config whose language list contains the id. -/
def getPatternConfig (languageId : String) : Option ModifierPatternConfig :=
  allPatternConfigs.find? (fun config => config.languages.contains languageId)

-- #endregion

-- #region Visibility and member-modifier extraction (extractSymbolModifiers.ts)

/-- Stable insertion step for sorting keywords by length, longest first.
A new keyword is placed before the first strictly shorter keyword, i.e.
after all keywords of greater or equal length, which is exactly the result
of the stable JS Array.prototype.sort with the comparator
(a, b) =&gt; b.length - a.length. -/
def insertByLenDesc (acc : List String) (s : String) : List String :=
  match acc with
  | [] => [s]
  | t :: ts => if t.length < s.length then s :: t :: ts else t :: insertByLenDesc ts s

/-- Stable sort of the visibility keywords, longest first (the
sortedKeywords computation of extractVisibility). -/
def sortByLenDesc (keys : List String) : List String := keys.foldl insertByLenDesc []

/-- Association-list lookup modelling JS object property access
(config.visibilityKeywords[keyword]). -/
def lookupAssoc {α : Type} : List (String × α) → String → Option α
  | [], _ => none
  | (k, v) :: rest, key => if k = key then some v else lookupAssoc rest key

/-- The keyword loop of extractVisibility: try each keyword in order;
on a word-bounded case-insensitive match whose table entry is defined,
return that visibility. -/
def extractVisibilityLoop (table : List (String × VisibilityModifier)) (text : Str) :
    List String → Option VisibilityModifier
  | [] => none
  | keyword :: rest =>
    if containsWB (str keyword) text then
      match lookupAssoc table keyword with
      | some visibility => some visibility
      | none => extractVisibilityLoop table text rest
    else extractVisibilityLoop table text rest

/-- extractVisibility: keywords are tried longest-first; if none matches,
the result is the default visibility (the explicit java branch of the
source and its final fallback both return the same default value). -/
def extractVisibility (text : Str) (config : ModifierPatternConfig)
    (languageId : String) : VisibilityModifier :=
  let sortedKeywords := sortByLenDesc (config.visibilityKeywords.map Prod.fst)
  match extractVisibilityLoop config.visibilityKeywords text sortedKeywords with
  | some visibility => visibility
  | none =>
    if languageId = "java" then VisibilityModifier.vdefault else VisibilityModifier.vdefault

/-- setMemberModifier: set the flag named by the given key. -/
def setMemberModifier (memberModifiers : MemberModifiers) (key : String) : MemberModifiers :=
  if key = "isStatic" then { memberModifiers with isStatic := true }
  else if key = "isReadonly" then { memberModifiers with isReadonly := true }
  else if key = "isConst" then { memberModifiers with isConst := true }
  else if key = "isAbstract" then { memberModifiers with isAbstract := true }
  else if key = "isVirtual" then { memberModifiers with isVirtual := true }
  else if key = "isOverride" then { memberModifiers with isOverride := true }
  else if key = "isAsync" then { memberModifiers with isAsync := true }
  else if key = "isSealed" then { memberModifiers with isSealed := true }
  else if key = "isExternC" then { memberModifiers with isExternC := true }
  else if key = "isVolatile" then { memberModifiers with isVolatile := true }
  else if key = "isNew" then { memberModifiers with isNew := true }
  else memberModifiers

/-- One keyword of extractMemberModifiers: the three pattern forms tried
for it (word-bounded keyword, decorator form, attribute form). -/
def keywordPatternMatches (keyword : String) (text : Str) : Bool :=
  containsWB (str keyword) text ||
    containsCI ('@' :: str keyword) text ||
    containsCI ('[' :: (str keyword ++ [']'])) text

/-- extractMemberModifiers: for every table entry with a non-empty keyword
list, each keyword that matches (in any of its three pattern forms) sets
the entry's flag. -/
def extractMemberModifiers (text : Str) (config : ModifierPatternConfig)
    (memberModifiers : MemberModifiers) : MemberModifiers :=
  config.memberKeywords.foldl
    (fun mm entry =>
      if entry.2.isEmpty then mm
      else
        entry.2.foldl
          (fun mm keyword =>
            if keywordPatternMatches keyword text then setMemberModifier mm entry.1 else mm)
          mm)
    memberModifiers

-- #endregion

-- #region Declaration text (getSymbolDeclarationText of extractSymbolModifiers.ts)

/-- DocumentSymbol: the fields of a vscode.DocumentSymbol read by the
modifier extractor (name, selectionRange start line, range start). -/
structure DocumentSymbol where
  name : String
  selectionStartLine : Nat
  rangeStartLine : Nat
  rangeStartCharacter : Nat
deriving DecidableEq, Repr

/-- TextDocument: the fields of a vscode.TextDocument read by the modifier
extractor.  `lines` is the ordered line texts of the document. -/
structure TextDocument where
  languageId : String
  lines : List Str
  version : Nat
  uri : String

/-- Whitespace class of the JS regexes involved (space characters of
source lines; the source only ever contains ASCII whitespace here). -/
def jsIsSpace (c : Char) : Bool :=
  c == ' ' || c == '\t' || c == '\n' || c == '\r' || c == '\x0b' || c == '\x0c'

/-- The backward-scan stop test of getSymbolDeclarationText: a blank line
(trims to empty) or a line matching the regex caret-whitespace-star
followed by a closing brace, bracket or parenthesis. -/
def isScanStopLine (lineText : Str) : Bool :=
  lineText.all jsIsSpace ||
    (match lineText.dropWhile jsIsSpace with
     | [] => false
     | c :: _ => c == '}' || c == ']' || c == ')')

/-- The backward loop of getSymbolDeclarationText, searching up to 3 lines
above the symbol line for decorators or attributes.  `fuel` is a structural
bound (4 suffices since `i` runs from 1 to 3). -/
def scanBackLoop (lines : List Str) (symbolLine : Nat) :
    Nat → Nat → Nat → Nat
  | 0, _, startLine => startLine
  | fuel + 1, i, startLine =>
    if 3 < i then startLine
    else if symbolLine < i then startLine
    else
      let prevLine := symbolLine - i
      if lines.length ≤ prevLine then startLine
      else
        let lineText := lines.getD prevLine []
        if isScanStopLine lineText then startLine
        else scanBackLoop lines symbolLine fuel (i + 1) prevLine

/-- document.getText over the range from (startLine, 0) to (endLine+1, 0),
with the end position clamped to the end of the document as vscode does. -/
def documentGetTextLines (lines : List Str) (startLine endLine : Nat) : Str :=
  let slice := (lines.drop startLine).take (endLine + 1 - startLine)
  if endLine + 1 < lines.length then (slice.map (fun l => l ++ ['\n'])).flatten
  else List.intercalate ['\n'] slice

/-- getSymbolDeclarationText: the symbol's declaration line plus up to 3
preceding lines, stopping at blank lines or closing-bracket lines, with a
guard for empty documents and out-of-range symbol lines. -/
def getSymbolDeclarationText (symbol : DocumentSymbol) (document : TextDocument) : Str :=
  let symbolLine := symbol.selectionStartLine
  let lineCount := document.lines.length
  if lineCount = 0 ∨ lineCount ≤ symbolLine then []
  else
    let startLine := scanBackLoop document.lines symbolLine 4 1 symbolLine
    let endLine := min symbolLine (lineCount - 1)
    documentGetTextLines document.lines startLine endLine

/-- Variant of the backward loop whose line reads are checked: reading a
line index outside the document yields none.  Used to state that the scan
never reads out of bounds. -/
def scanBackLoopChecked (lines : List Str) (symbolLine : Nat) :
    Nat → Nat → Nat → Option Nat
  | 0, _, startLine => some startLine
  | fuel + 1, i, startLine =>
    if 3 < i then some startLine
    else if symbolLine < i then some startLine
    else
      let prevLine := symbolLine - i
      if lines.length ≤ prevLine then some startLine
      else
        match lines.get? prevLine with
        | none => none
        | some lineText =>
          if isScanStopLine lineText then some startLine
          else scanBackLoopChecked lines symbolLine fuel (i + 1) prevLine

/-- getSymbolDeclarationText with checked line reads. -/
def getSymbolDeclarationTextChecked (symbol : DocumentSymbol) (document : TextDocument) :
    Option Str :=
  let symbolLine := symbol.selectionStartLine
  let lineCount := document.lines.length
  if lineCount = 0 ∨ lineCount ≤ symbolLine then some []
  else
    (scanBackLoopChecked document.lines symbolLine 4 1 symbolLine).map fun startLine =>
      documentGetTextLines document.lines startLine (min symbolLine (lineCount - 1))

-- #endregion

-- #region extractSymbolModifiers (the composition)

/-- applyPythonNamingConventionVisibility: visibility from the symbol name
alone (leading dunder without trailing dunder is private, then leading
underscore is protected, else public). -/
def applyPythonNamingConventionVisibility (name : String) (modifiers : SymbolModifiers) :
    SymbolModifiers :=
  if (str "__").isPrefixOf (str name) && !((str "__").isSuffixOf (str name)) then
    { modifiers with visibility := VisibilityModifier.vprivate }
  else if (str "_").isPrefixOf (str name) then
    { modifiers with visibility := VisibilityModifier.vprotected }
  else
    { modifiers with visibility := VisibilityModifier.vpublic }

/-- extractSymbolModifiers: the main extraction pipeline. -/
def extractSymbolModifiers (symbol : DocumentSymbol) (document : TextDocument) :
    SymbolModifiers :=
  match getPatternConfig document.languageId with
  | none => getDefaultModifiers
  | some patternConfig =>
    let modifiers0 := getDefaultModifiers
    let modifiers1 :=
      if document.languageId = "python" then
        applyPythonNamingConventionVisibility symbol.name modifiers0
      else modifiers0
    let text := getSymbolDeclarationText symbol document
    let visibility :=
      if document.languageId ≠ "python" then
        extractVisibility text patternConfig document.languageId
      else modifiers1.visibility
    let memberModifiers := extractMemberModifiers text patternConfig modifiers1.memberModifiers
    { visibility := visibility, memberModifiers := memberModifiers }

-- #endregion

-- #region Decimal rendering of numbers interpolated into JS template strings

/-- One decimal digit character (the JS rendering of d for d below 10). -/
def digitChar (d : Nat) : Char :=
  if d = 0 then '0' else if d = 1 then '1' else if d = 2 then '2' else if d = 3 then '3'
  else if d = 4 then '4' else if d = 5 then '5' else if d = 6 then '6' else if d = 7 then '7'
  else if d = 8 then '8' else if d = 9 then '9' else '*'

/-- Numeric value of a decimal digit character. -/
def digitVal (c : Char) : Nat :=
  if c = '0' then 0 else if c = '1' then 1 else if c = '2' then 2 else if c = '3' then 3
  else if c = '4' then 4 else if c = '5' then 5 else if c = '6' then 6 else if c = '7' then 7
  else if c = '8' then 8 else if c = '9' then 9 else 0

/-- Fuelled most-significant-first decimal expansion. -/
def toDecAux : Nat → Nat → List Char
  | 0, _ => []
  | fuel + 1, n =>
    if n < 10 then [digitChar n] else toDecAux fuel (n / 10) ++ [digitChar (n % 10)]

/-- Decimal rendering of a natural number, as a JS template string
interpolation produces it. -/
def decChars (n : Nat) : Str := toDecAux (n + 1) n

/-- Value of a digit string (used to prove decChars injective). -/
def listVal (cs : List Char) : Nat := cs.foldl (fun acc c => acc * 10 + digitVal c) 0

-- #endregion

-- #region Modifier cache (extractSymbolModifiersWithCache of extractSymbolModifiers.ts)

/-- getSymbolCacheKey: uri, version, range start line, range start
character and name joined with colons. -/
def getSymbolCacheKey (symbol : DocumentSymbol) (documentVersion : Nat)
    (documentUri : String) : Str :=
  str documentUri ++ ':' :: decChars documentVersion ++
    ':' :: decChars symbol.rangeStartLine ++
    ':' :: decChars symbol.rangeStartCharacter ++
    ':' :: str symbol.name

/-- The modifier cache: a JS Map in insertion order. -/
abbrev ModifierCache := List (Str × SymbolModifiers)

/-- Map.get. -/
def mapGet (m : ModifierCache) (key : Str) : Option SymbolModifiers :=
  match m with
  | [] => none
  | (k, v) :: rest => if k = key then some v else mapGet rest key

/-- Map.set: replaces in place when the key exists, appends otherwise. -/
def mapSet (m : ModifierCache) (key : Str) (value : SymbolModifiers) : ModifierCache :=
  match m with
  | [] => [(key, value)]
  | (k, v) :: rest =>
    if k = key then (k, value) :: rest else (k, v) :: mapSet rest key value

/-- Map.delete: removes the entry of the key, if present. -/
def mapDelete (m : ModifierCache) (key : Str) : ModifierCache :=
  match m with
  | [] => []
  | (k, v) :: rest => if k = key then rest else (k, v) :: mapDelete rest key

/-- extractSymbolModifiersWithCache.  The process-wide mutable Map is made
explicit: the function takes the cache before the call and returns the
modifiers together with the cache after the call.  On a miss the fresh
value is inserted and, when the size then exceeds 5000, the first 1000
keys in insertion order are deleted. -/
def extractSymbolModifiersWithCache (cache : ModifierCache) (symbol : DocumentSymbol)
    (document : TextDocument) : SymbolModifiers × ModifierCache :=
  let cacheKey := getSymbolCacheKey symbol document.version document.uri
  match mapGet cache cacheKey with
  | some cached => (cached, cache)
  | none =>
    let modifiers := extractSymbolModifiers symbol document
    let cache1 := mapSet cache cacheKey modifiers
    let cache2 :=
      if 5000 < cache1.length then
        ((cache1.map Prod.fst).take 1000).foldl mapDelete cache1
      else cache1
    (modifiers, cache2)

-- #endregion

-- #region Tree item ids (FullTreeItem.ts, getFlattenedFullTreeItems.ts)

/-- getPartialTreeItemId: item kind id and display name joined by a dash. -/
def getPartialTreeItemId (itemKindId displayName : Str) : Str :=
  itemKindId ++ '-' :: displayName

/-- getUniqueTreeItemId: the partial id followed by a dash and the
occurrence count. -/
def getUniqueTreeItemId (partId : Str) (itemCount : Nat) : Str :=
  partId ++ '-' :: decChars itemCount

/-- The partial id of an (itemKindId, displayName) pair. -/
def partIdOf (p : Str × Str) : Str := getPartialTreeItemId p.1 p.2

/-- The id-assignment loop shared by getFlattenedRegionFullTreeItems and
getFlattenedSymbolFullTreeItems: walk the items in order, keep a count per
partial id (the itemCountByPartialId map, here represented by the list of
partial ids already seen), and give each item the unique id built from its
partial id and its occurrence count. -/
def assignIdsGo (seen : List Str) : List (Str × Str) → List Str
  | [] => []
  | p :: rest =>
    let partId := partIdOf p
    let newItemCount := seen.count partId + 1
    getUniqueTreeItemId partId newItemCount :: assignIdsGo (seen ++ [partId]) rest

/-- Ids assigned to a flattened item list, where each item is reduced to
the pair (itemKindId, displayName) that its id is built from (the kind id
is the constant region for region items and the symbol theme icon id for
symbol items). -/
def assignIds (pairs : List (Str × Str)) : List Str := assignIdsGo [] pairs

-- #endregion

-- #region FullOutlineStore synchronization logic (FullOutlineStore.ts)

/-- The debounce delay for the structural refresh (milliseconds). -/
def REFRESH_FULL_OUTLINE_DEBOUNCE_DELAY_MS : Nat := 100

/-- The debounce delay for the active-item refresh (milliseconds). -/
def REFRESH_ACTIVE_ITEM_DEBOUNCE_DELAY_MS : Nat := 100

/-- A full tree item, reduced to the fields the store logic reads: its id
and its range start position (used for sorting by start). -/
structure FullItem where
  id : String
  startLine : Nat
  startCharacter : Nat
deriving DecidableEq, Repr

/-- The mutable fields of the FullOutlineStore singleton. -/
structure FullOutlineState where
  topLevelItems : List FullItem
  allParentIds : List String
  activeItem : Option FullItem
  documentId : Option String
  versionedDocumentId : Option String
  isRefreshingItems : Bool
  refreshActiveItemTimeoutPending : Bool
deriving DecidableEq, Repr

/-- The collaborators read during a refresh: the two source stores'
versioned snapshots, the flattened item lists derived from them, the
outline generator and active-item lookup (defined outside the given
sources and therefore kept abstract), and the active editor's cursor. -/
structure RefreshEnv where
  regionVersionedDocumentId : Option String
  symbolVersionedDocumentId : Option String
  regionDocumentId : Option String
  flattenedRegionItems : List FullItem
  flattenedSymbolItems : List FullItem
  generateFullOutlineTreeItems : List FullItem → List FullItem → List FullItem × List String
  cursorPosition : Option (Nat × Nat)
  getActiveFullTreeItem : List FullItem → Nat × Nat → Option FullItem

/-- Strict order on range starts (Position.compareTo below zero). -/
def posLT (a b : FullItem) : Bool :=
  a.startLine < b.startLine || (a.startLine == b.startLine && a.startCharacter < b.startCharacter)

/-- Stable insertion used to model the stable JS sort by start position. -/
def insertByStart (acc : List FullItem) (x : FullItem) : List FullItem :=
  match acc with
  | [] => [x]
  | y :: ys => if posLT x y then x :: y :: ys else y :: insertByStart ys x

/-- sortFullTreeItemsByStart (as a pure function). -/
def sortFullTreeItemsByStart (items : List FullItem) : List FullItem :=
  items.foldl insertByStart []

/-- refreshItems.  Returns the updated state together with whether
onDidChangeFullOutlineItems fired; the source fires it unconditionally.
The isRefreshingItems flag is raised on entry and lowered at the end. -/
def refreshItems (env : RefreshEnv) (s : FullOutlineState) : FullOutlineState × Bool :=
  let flattenedRegionItems := sortFullTreeItemsByStart env.flattenedRegionItems
  let flattenedSymbolItems := sortFullTreeItemsByStart env.flattenedSymbolItems
  let generated := env.generateFullOutlineTreeItems flattenedRegionItems flattenedSymbolItems
  ({ s with
      topLevelItems := generated.1
      allParentIds := generated.2
      isRefreshingItems := false },
    true)

/-- refreshActiveItem.  Returns the updated state together with whether
onDidChangeActiveFullOutlineItem fired; the source fires it when the new
active item is not the previous one. -/
def refreshActiveItem (env : RefreshEnv) (s : FullOutlineState) : FullOutlineState × Bool :=
  let s := { s with refreshActiveItemTimeoutPending := false }
  match env.cursorPosition with
  | none => (s, false)
  | some cursorPosition =>
    let oldActiveItem := s.activeItem
    let newActiveItem := env.getActiveFullTreeItem s.topLevelItems cursorPosition
    ({ s with activeItem := newActiveItem }, decide (newActiveItem ≠ oldActiveItem))

/-- refreshFullOutline: the version-agreement gate followed by the two
refreshes.  The result carries the state and the two event flags
(outline-items event, active-item event). -/
def refreshFullOutline (env : RefreshEnv) (s : FullOutlineState) :
    FullOutlineState × Bool × Bool :=
  if env.regionVersionedDocumentId ≠ env.symbolVersionedDocumentId then (s, false, false)
  else
    let s1 := { s with
      documentId := env.regionDocumentId
      versionedDocumentId := env.regionVersionedDocumentId }
    let r2 := refreshItems env s1
    let r3 := refreshActiveItem env r2.1
    (r3.1, r2.2, r3.2)

/-- onSelectionChange: skipped entirely while refreshItems is running;
otherwise, for the active editor, the debounced active-item refresh is
(re)scheduled. -/
def onSelectionChange (eventEditorIsActive : Bool) (s : FullOutlineState) : FullOutlineState :=
  if s.isRefreshingItems then s
  else if eventEditorIsActive then { s with refreshActiveItemTimeoutPending := true }
  else s

-- #endregion

-- #region Concrete fixtures used by witnesses and counterexamples

/-- A store state with empty published data. -/
def initialState : FullOutlineState :=
  { topLevelItems := []
    allParentIds := []
    activeItem := none
    documentId := none
    versionedDocumentId := none
    isRefreshingItems := false
    refreshActiveItemTimeoutPending := false }

/-- An environment whose two sources report different document versions. -/
def mismatchEnv : RefreshEnv :=
  { regionVersionedDocumentId := some "file:///a.ts:5"
    symbolVersionedDocumentId := some "file:///a.ts:4"
    regionDocumentId := some "file:///a.ts"
    flattenedRegionItems := []
    flattenedSymbolItems := []
    generateFullOutlineTreeItems := fun _ _ => ([], [])
    cursorPosition := none
    getActiveFullTreeItem := fun _ _ => none }

/-- A sample outline item. -/
def sampleItem : FullItem := { id := "region-A-1", startLine := 0, startCharacter := 0 }

/-- A state already publishing exactly the outline that the next refresh
will regenerate. -/
def sampleState : FullOutlineState :=
  { topLevelItems := [sampleItem]
    allParentIds := ["region-A-1"]
    activeItem := none
    documentId := some "file:///a.ts"
    versionedDocumentId := some "file:///a.ts:5"
    isRefreshingItems := false
    refreshActiveItemTimeoutPending := false }

/-- An environment in version agreement whose generator reproduces the
outline already published by sampleState. -/
def sampleEnv : RefreshEnv :=
  { regionVersionedDocumentId := some "file:///a.ts:5"
    symbolVersionedDocumentId := some "file:///a.ts:5"
    regionDocumentId := some "file:///a.ts"
    flattenedRegionItems := [sampleItem]
    flattenedSymbolItems := []
    generateFullOutlineTreeItems := fun _ _ => ([sampleItem], ["region-A-1"])
    cursorPosition := none
    getActiveFullTreeItem := fun _ _ => none }

/-- A state in the middle of refreshItems. -/
def refreshingState : FullOutlineState :=
  { topLevelItems := [sampleItem]
    allParentIds := ["region-A-1"]
    activeItem := none
    documentId := some "file:///a.ts"
    versionedDocumentId := some "file:///a.ts:5"
    isRefreshingItems := true
    refreshActiveItemTimeoutPending := false }

-- #endregion

-- #region C1: version agreement gates synthesis

/-- C1: whenever the region store's and the symbol store's versioned
document ids differ, refreshFullOutline returns without synthesizing: the
published topLevelFullOutlineItems, allParentIds and activeFullOutlineItem
(indeed the whole state) are unchanged and no event fires; hence the
merged outline is recomputed and published only when the two versioned
document ids are equal. -/
theorem refreshFullOutline_version_mismatch_keeps_state
    (env : RefreshEnv) (s : FullOutlineState)
    (h : env.regionVersionedDocumentId ≠ env.symbolVersionedDocumentId) :
    refreshFullOutline env s = (s, false, false) := by
  simp [refreshFullOutline, h]

/-- Witness for C1 at a concrete mismatching environment. -/
theorem refreshFullOutline_version_mismatch_keeps_state_witness :
    mismatchEnv.regionVersionedDocumentId ≠ mismatchEnv.symbolVersionedDocumentId ∧
    refreshFullOutline mismatchEnv initialState = (initialState, false, false) :=
  ⟨by decide,
   refreshFullOutline_version_mismatch_keeps_state mismatchEnv initialState (by decide)⟩

-- #endregion

-- #region C2: change-event firing

/-- C2 counterexample: a refresh that regenerates a structurally identical
outline tree (and identical parent-id set) still fires
onDidChangeFullOutlineItems — refreshItems fires the event
unconditionally, so the fired-only-on-structural-change claim fails. -/
theorem refreshItems_fires_on_identical_tree :
    (refreshItems sampleEnv sampleState).1.topLevelItems = sampleState.topLevelItems ∧
    (refreshItems sampleEnv sampleState).1.allParentIds = sampleState.allParentIds ∧
    (refreshItems sampleEnv sampleState).2 = true :=
  ⟨rfl, rfl, rfl⟩

/-- C2 (amended): onDidChangeFullOutlineItems fires on every refreshItems
invocation, whether or not the recomputed outline differs from the
previous snapshot, while onDidChangeActiveFullOutlineItem fires on an
active-item recomputation exactly when there is a cursor position and the
newly resolved active item is not the previous one. -/
theorem outline_change_events_firing :
    ∀ (env : RefreshEnv) (s : FullOutlineState),
      (refreshItems env s).2 = true ∧
      ((refreshActiveItem env s).2 = true ↔
        ∃ p, env.cursorPosition = some p ∧
          env.getActiveFullTreeItem s.topLevelItems p ≠ s.activeItem) := by
  intro env s
  refine ⟨rfl, ?_⟩
  unfold refreshActiveItem
  cases h : env.cursorPosition with
  | none => simp [h]
  | some p => simp [h]

-- #endregion

-- #region C8: debounce windows and the in-flight guard

/-- C8 counterexample: the active-item debounce delay is not shorter than
the structural-refresh debounce delay — both constants are 100 ms. -/
theorem active_item_debounce_not_shorter :
    ¬ (REFRESH_ACTIVE_ITEM_DEBOUNCE_DELAY_MS < REFRESH_FULL_OUTLINE_DEBOUNCE_DELAY_MS) := by
  decide

/-- C8 (amended): the active-item refresh uses the same 100 ms debounce
window as the structural refresh (not a shorter one), and a
selection-change trigger that arrives while refreshItems is in flight is
skipped entirely: it neither recomputes nor schedules an active-item
refresh. -/
theorem debounce_windows_equal_and_refresh_guard :
    REFRESH_ACTIVE_ITEM_DEBOUNCE_DELAY_MS = REFRESH_FULL_OUTLINE_DEBOUNCE_DELAY_MS ∧
    ∀ (eventEditorIsActive : Bool) (s : FullOutlineState),
      s.isRefreshingItems = true → onSelectionChange eventEditorIsActive s = s := by
  refine ⟨rfl, ?_⟩
  intro b s h
  simp [onSelectionChange, h]

/-- Witness for C8 (amended) at a concrete in-flight state. -/
theorem debounce_windows_equal_and_refresh_guard_witness :
    refreshingState.isRefreshingItems = true ∧
    onSelectionChange true refreshingState = refreshingState :=
  ⟨rfl, debounce_windows_equal_and_refresh_guard.2 true refreshingState rfl⟩

-- #endregion

-- #region C5: unsupported languages degrade to default modifiers

/-- C5: for a document whose language id appears in none of the pattern
configurations, extractSymbolModifiers returns the default/empty
SymbolModifiers for every symbol (and, being a total function, never
raises). -/
theorem extractSymbolModifiers_unsupported_language_default
    (symbol : DocumentSymbol) (document : TextDocument)
    (h : ∀ config ∈ allPatternConfigs, document.languageId ∉ config.languages) :
    extractSymbolModifiers symbol document = getDefaultModifiers := by
  have hfind : getPatternConfig document.languageId = none := by
    unfold getPatternConfig
    apply List.find?_eq_none.mpr
    intro config hc
    simpa using h config hc
  simp [extractSymbolModifiers, hfind]

/-- Concrete fixtures: a ruby document (no pattern table entry). -/
def rubyDocument : TextDocument :=
  { languageId := "ruby", lines := [str "def run"], version := 1, uri := "file:///a.rb" }

/-- A symbol of the ruby document. -/
def rubySymbol : DocumentSymbol :=
  { name := "run", selectionStartLine := 0, rangeStartLine := 0, rangeStartCharacter := 4 }

/-- Witness for C5 at the ruby fixture. -/
theorem extractSymbolModifiers_unsupported_language_default_witness :
    (∀ config ∈ allPatternConfigs, rubyDocument.languageId ∉ config.languages) ∧
    extractSymbolModifiers rubySymbol rubyDocument = getDefaultModifiers :=
  ⟨by decide,
   extractSymbolModifiers_unsupported_language_default rubySymbol rubyDocument (by decide)⟩

-- #endregion

-- #region C3: python visibility from the symbol name

/-- C3: for every python document, the visibility extracted for a symbol
is a pure function of the symbol's name: a leading double underscore
without a trailing double underscore gives private, otherwise a leading
underscore gives protected, otherwise public. -/
theorem extractSymbolModifiers_python_visibility_from_name
    (symbol : DocumentSymbol) (document : TextDocument)
    (h : document.languageId = "python") :
    (extractSymbolModifiers symbol document).visibility =
      (if (str "__").isPrefixOf (str symbol.name) && !((str "__").isSuffixOf (str symbol.name))
       then VisibilityModifier.vprivate
       else if (str "_").isPrefixOf (str symbol.name) then VisibilityModifier.vprotected
       else VisibilityModifier.vpublic) := by
  have hcfg : getPatternConfig document.languageId = some pythonPatterns := by
    rw [h]; rfl
  unfold extractSymbolModifiers
  rw [hcfg]
  simp only [h]
  simp [applyPythonNamingConventionVisibility]
  split
  · rfl
  · split <;> rfl

/-- Concrete fixture: a python document. -/
def pyDocument : TextDocument :=
  { languageId := "python", lines := [str "def f():"], version := 1, uri := "file:///a.py" }

/-- Witness for C3: the names given by the spec scenario. -/
theorem extractSymbolModifiers_python_visibility_from_name_witness :
    pyDocument.languageId = "python" ∧
    (extractSymbolModifiers
        { name := "__secret", selectionStartLine := 0, rangeStartLine := 0,
          rangeStartCharacter := 0 } pyDocument).visibility = VisibilityModifier.vprivate ∧
    (extractSymbolModifiers
        { name := "_helper", selectionStartLine := 0, rangeStartLine := 0,
          rangeStartCharacter := 0 } pyDocument).visibility = VisibilityModifier.vprotected ∧
    (extractSymbolModifiers
        { name := "run", selectionStartLine := 0, rangeStartLine := 0,
          rangeStartCharacter := 0 } pyDocument).visibility = VisibilityModifier.vpublic :=
  ⟨rfl,
   (extractSymbolModifiers_python_visibility_from_name _ pyDocument rfl).trans (by decide),
   (extractSymbolModifiers_python_visibility_from_name _ pyDocument rfl).trans (by decide),
   (extractSymbolModifiers_python_visibility_from_name _ pyDocument rfl).trans (by decide)⟩

-- #endregion

-- #region C6: longest-first visibility keyword matching

/-- Helper: the keyword loop returns the table entry of the first keyword
that matches. -/
theorem extractVisibilityLoop_cons_pos {table : List (String × VisibilityModifier)}
    {text : Str} {kw : String} {rest : List String} {v : VisibilityModifier}
    (hkw : containsWB (str kw) text = true) (hv : lookupAssoc table kw = some v) :
    extractVisibilityLoop table text (kw :: rest) = some v := by
  unfold extractVisibilityLoop
  simp [hkw, hv]

/-- C6: the keyword loop tries keywords longest-first, so every C#
declaration text in which the combined keyword protected internal occurs
(word-bounded, case-insensitively) extracts the combined visibility
protected-internal, not protected or internal. -/
theorem extractVisibility_prefers_protected_internal
    (text : Str) (h : containsWB (str "protected internal") text = true) :
    extractVisibility text csharpPatterns "csharp" = VisibilityModifier.vprotectedInternal := by
  have hsort : sortByLenDesc (csharpPatterns.visibilityKeywords.map Prod.fst) =
      ["protected internal", "internal protected", "private protected", "protected private",
       "protected", "internal", "private", "public"] := by rfl
  have hloop : extractVisibilityLoop csharpPatterns.visibilityKeywords text
      ("protected internal" ::
        ["internal protected", "private protected", "protected private",
         "protected", "internal", "private", "public"]) =
      some VisibilityModifier.vprotectedInternal :=
    extractVisibilityLoop_cons_pos h rfl
  unfold extractVisibility
  rw [hsort]
  simp only [hloop]

/-- Witness for C6 at a concrete declaration text. -/
theorem extractVisibility_prefers_protected_internal_witness :
    containsWB (str "protected internal") (str "protected internal int Count") = true ∧
    extractVisibility (str "protected internal int Count") csharpPatterns "csharp" =
      VisibilityModifier.vprotectedInternal :=
  ⟨by decide, extractVisibility_prefers_protected_internal _ (by decide)⟩

-- #endregion

-- #region C10: declaration text stays within the document bounds

/-- Helper: the checked backward scan always succeeds and agrees with the
unchecked one — every line it reads is in bounds. -/
theorem scanBackLoopChecked_eq_some (lines : List Str) (symbolLine : Nat) :
    ∀ (fuel i startLine : Nat),
      scanBackLoopChecked lines symbolLine fuel i startLine =
        some (scanBackLoop lines symbolLine fuel i startLine) := by
  intro fuel
  induction fuel with
  | zero => intro i startLine; rfl
  | succ f ih =>
    intro i startLine
    unfold scanBackLoop scanBackLoopChecked
    by_cases h1 : 3 < i
    · simp [h1]
    by_cases h2 : symbolLine < i
    · simp [h1, h2]
    by_cases h3 : lines.length ≤ symbolLine - i
    · simp [h1, h2, h3]
    · have hlt : symbolLine - i < lines.length := by omega
      have hget : lines.get? (symbolLine - i) = some (lines.getD (symbolLine - i) []) := by
        simp [List.getD_eq_getElem?_getD, List.get?_eq_getElem?, List.getElem?_eq_getElem hlt]
      simp only [h1, h2, h3, if_false, hget, ih]
      split <;> rfl

/-- C10: for an empty document, and for a symbol whose selection start
line is at or past the document's line count, getSymbolDeclarationText
returns the empty text; moreover the line-read-checked variant of the
function always succeeds and agrees with it, so modifier extraction never
reads a line outside the document's bounds. -/
theorem getSymbolDeclarationText_bounds_safe
    (symbol : DocumentSymbol) (document : TextDocument) :
    ((document.lines.length = 0 ∨ document.lines.length ≤ symbol.selectionStartLine) →
      getSymbolDeclarationText symbol document = []) ∧
    getSymbolDeclarationTextChecked symbol document =
      some (getSymbolDeclarationText symbol document) := by
  constructor
  · intro h
    simp only [getSymbolDeclarationText]
    rw [if_pos h]
  · simp only [getSymbolDeclarationText, getSymbolDeclarationTextChecked]
    by_cases h : document.lines.length = 0 ∨ document.lines.length ≤ symbol.selectionStartLine
    · rw [if_pos h, if_pos h]
    · rw [if_neg h, if_neg h, scanBackLoopChecked_eq_some]
      rfl

/-- Concrete fixture for C10: an empty document. -/
def emptyDocument : TextDocument :=
  { languageId := "python", lines := [], version := 1, uri := "file:///e.py" }

/-- Concrete fixture for C10: a symbol whose selection line is past the
empty document's line count. -/
def outOfRangeSymbol : DocumentSymbol :=
  { name := "f", selectionStartLine := 3, rangeStartLine := 3, rangeStartCharacter := 0 }

/-- Witness for C10 at the empty document and out-of-range symbol. -/
theorem getSymbolDeclarationText_bounds_safe_witness :
    ((emptyDocument.lines.length = 0 ∨
        emptyDocument.lines.length ≤ outOfRangeSymbol.selectionStartLine) ∧
      getSymbolDeclarationText outOfRangeSymbol emptyDocument = []) ∧
    getSymbolDeclarationTextChecked outOfRangeSymbol emptyDocument =
      some (getSymbolDeclarationText outOfRangeSymbol emptyDocument) :=
  ⟨⟨Or.inl rfl,
    (getSymbolDeclarationText_bounds_safe outOfRangeSymbol emptyDocument).1 (Or.inl rfl)⟩,
   (getSymbolDeclarationText_bounds_safe outOfRangeSymbol emptyDocument).2⟩

-- #endregion

-- #region C9: case-insensitive keyword matching

/-- Relation between the previous-character registers of two case-variant
texts. -/
def ciEqOpt : Option Char → Option Char → Prop
  | none, none => True
  | some a, some b => foldNat a = foldNat b
  | _, _ => False

/-- Characters with equal case-folds are word characters together. -/
theorem isWordChar_eq_of_fold {a b : Char} (h : foldNat a = foldNat b) :
    isWordChar a = isWordChar b := by
  rw [Bool.eq_iff_iff]
  simp only [isWordChar, Bool.or_eq_true, Bool.and_eq_true, decide_eq_true_eq, beq_iff_eq]
  unfold foldNat at h
  split_ifs at h <;> omega

/-- ciEq gives equal case-folds. -/
theorem foldNat_eq_of_ciEq {a b : Char} (h : ciEq a b = true) : foldNat a = foldNat b := by
  simpa [ciEq] using h

/-- ciEq against a fixed keyword character is determined by the case-fold. -/
theorem ciEq_congr_right (k : Char) {a b : Char} (h : foldNat a = foldNat b) :
    ciEq k a = ciEq k b := by
  simp [ciEq, h]

/-- wordAt is determined by the case-fold. -/
theorem wordAt_congr {a b : Option Char} (h : ciEqOpt a b) : wordAt a = wordAt b := by
  cases a <;> cases b <;> simp [ciEqOpt] at h <;> simp [wordAt]
  exact isWordChar_eq_of_fold h

/-- The heads of two case-variant texts are related. -/
theorem head?_ciEqOpt {t1 t2 : Str} (h : ciEqList t1 t2 = true) :
    ciEqOpt t1.head? t2.head? := by
  cases t1 <;> cases t2 <;> simp [ciEqList] at h <;> simp [ciEqOpt]
  exact foldNat_eq_of_ciEq h.1

/-- matchRest is invariant under changing the letter case of the text. -/
theorem matchRest_congr (kw : Str) :
    ∀ {l1 l2 : Option Char} {t1 t2 : Str}, ciEqOpt l1 l2 → ciEqList t1 t2 = true →
      matchRest kw l1 t1 = matchRest kw l2 t2 := by
  induction kw with
  | nil =>
    intro l1 l2 t1 t2 hl ht
    simp only [matchRest, isBoundary, wordAt_congr hl, wordAt_congr (head?_ciEqOpt ht)]
  | cons k ks ih =>
    intro l1 l2 t1 t2 hl ht
    cases t1 with
    | nil => cases t2 with
      | nil => rfl
      | cons b bs => simp [ciEqList] at ht
    | cons a as => cases t2 with
      | nil => simp [ciEqList] at ht
      | cons b bs =>
        simp only [ciEqList, Bool.and_eq_true] at ht
        have hf := foldNat_eq_of_ciEq ht.1
        simp only [matchRest, ciEq_congr_right k hf]
        rw [ih (show ciEqOpt (some a) (some b) from hf) ht.2]

/-- containsWBAux is invariant under changing the letter case of the text. -/
theorem containsWBAux_congr (kw : Str) :
    ∀ {t1 t2 : Str} {p1 p2 : Option Char}, ciEqOpt p1 p2 → ciEqList t1 t2 = true →
      containsWBAux kw p1 t1 = containsWBAux kw p2 t2 := by
  intro t1
  induction t1 with
  | nil =>
    intro t2 p1 p2 hp ht
    cases t2 with
    | nil =>
      simp only [containsWBAux]
      rw [matchRest_congr kw hp ht]
      simp only [isBoundary, wordAt_congr hp]
    | cons b bs => simp [ciEqList] at ht
  | cons a as ih =>
    intro t2 p1 p2 hp ht
    cases t2 with
    | nil => simp [ciEqList] at ht
    | cons b bs =>
      simp only [ciEqList, Bool.and_eq_true] at ht
      have hf := foldNat_eq_of_ciEq ht.1
      have hcons : ciEqList (a :: as) (b :: bs) = true := by
        simp [ciEqList, ht.1, ht.2]
      simp only [containsWBAux]
      rw [matchRest_congr kw hp hcons]
      rw [ih (show ciEqOpt (some a) (some b) from hf) ht.2]
      simp only [isBoundary, wordAt_congr hp, wordAt_congr (head?_ciEqOpt hcons)]

/-- containsWB is invariant under changing the letter case of the text. -/
theorem containsWB_congr (kw : Str) {t1 t2 : Str} (ht : ciEqList t1 t2 = true) :
    containsWB kw t1 = containsWB kw t2 :=
  containsWBAux_congr kw trivial ht

/-- isPrefixCI is invariant under changing the letter case of the text. -/
theorem isPrefixCI_congr (kw : Str) :
    ∀ {t1 t2 : Str}, ciEqList t1 t2 = true → isPrefixCI kw t1 = isPrefixCI kw t2 := by
  induction kw with
  | nil => intro t1 t2 _; rfl
  | cons k ks ih =>
    intro t1 t2 ht
    cases t1 with
    | nil => cases t2 with
      | nil => rfl
      | cons b bs => simp [ciEqList] at ht
    | cons a as => cases t2 with
      | nil => simp [ciEqList] at ht
      | cons b bs =>
        simp only [ciEqList, Bool.and_eq_true] at ht
        simp only [isPrefixCI, ciEq_congr_right k (foldNat_eq_of_ciEq ht.1), ih ht.2]

/-- containsCI is invariant under changing the letter case of the text. -/
theorem containsCI_congr (kw : Str) :
    ∀ {t1 t2 : Str}, ciEqList t1 t2 = true → containsCI kw t1 = containsCI kw t2 := by
  intro t1
  induction t1 with
  | nil =>
    intro t2 ht
    cases t2 with
    | nil => rfl
    | cons b bs => simp [ciEqList] at ht
  | cons a as ih =>
    intro t2 ht
    cases t2 with
    | nil => simp [ciEqList] at ht
    | cons b bs =>
      simp only [ciEqList, Bool.and_eq_true] at ht
      simp only [containsCI]
      rw [isPrefixCI_congr kw (show ciEqList (a :: as) (b :: bs) = true by
            simp [ciEqList, ht.1, ht.2])]
      rw [ih ht.2]

/-- The three pattern forms of one member-modifier keyword are all
invariant under changing the letter case of the text. -/
theorem keywordPatternMatches_congr (keyword : String) {t1 t2 : Str}
    (ht : ciEqList t1 t2 = true) :
    keywordPatternMatches keyword t1 = keywordPatternMatches keyword t2 := by
  simp only [keywordPatternMatches, containsWB_congr _ ht, containsCI_congr _ ht]

/-- The visibility keyword loop is invariant under changing the letter
case of the text. -/
theorem extractVisibilityLoop_congr (table : List (String × VisibilityModifier))
    {t1 t2 : Str} (ht : ciEqList t1 t2 = true) :
    ∀ keys : List String,
      extractVisibilityLoop table t1 keys = extractVisibilityLoop table t2 keys := by
  intro keys
  induction keys with
  | nil => rfl
  | cons kw rest ih =>
    simp only [extractVisibilityLoop, containsWB_congr (str kw) ht, ih]

/-- C9: modifier keyword matching is case-insensitive — texts that differ
only in letter case extract the same visibility and the same member
modifiers, so a declaration containing a keyword in any letter case sets
the same modifier as the lower-case form. -/
theorem modifier_matching_case_insensitive
    (config : ModifierPatternConfig) (languageId : String) (t1 t2 : Str)
    (memberModifiers : MemberModifiers) (ht : ciEqList t1 t2 = true) :
    extractVisibility t1 config languageId = extractVisibility t2 config languageId ∧
    extractMemberModifiers t1 config memberModifiers =
      extractMemberModifiers t2 config memberModifiers := by
  constructor
  · simp only [extractVisibility, extractVisibilityLoop_congr config.visibilityKeywords ht]
  · unfold extractMemberModifiers
    induction config.memberKeywords generalizing memberModifiers with
    | nil => rfl
    | cons entry rest ih =>
      simp only [List.foldl_cons]
      rw [show (fun mm keyword =>
            if keywordPatternMatches keyword t1 then setMemberModifier mm entry.1 else mm) =
          (fun mm keyword =>
            if keywordPatternMatches keyword t2 then setMemberModifier mm entry.1 else mm) from
          funext fun mm => funext fun keyword => by
            rw [keywordPatternMatches_congr keyword ht]]
      exact ih _

-- #endregion

/-- Witness for C9: upper-case PRIVATE and Static extract the same
modifiers as the lower-case forms. -/
theorem modifier_matching_case_insensitive_witness :
    ciEqList (str "PRIVATE Static x") (str "private static x") = true ∧
    (extractVisibility (str "PRIVATE Static x") csharpPatterns "csharp" =
        extractVisibility (str "private static x") csharpPatterns "csharp" ∧
      extractMemberModifiers (str "PRIVATE Static x") csharpPatterns
          getDefaultModifiers.memberModifiers =
        extractMemberModifiers (str "private static x") csharpPatterns
          getDefaultModifiers.memberModifiers) :=
  ⟨by decide,
   modifier_matching_case_insensitive csharpPatterns "csharp" (str "PRIVATE Static x")
     (str "private static x") getDefaultModifiers.memberModifiers (by decide)⟩

-- #region C4: the modifier cache

/-- A key is absent exactly when mapGet misses. -/
theorem mapGet_eq_none_iff (cache : ModifierCache) (key : Str) :
    mapGet cache key = none ↔ key ∉ cache.map Prod.fst := by
  induction cache with
  | nil => simp [mapGet]
  | cons entry rest ih =>
    obtain ⟨k, v⟩ := entry
    by_cases hk : k = key
    · subst hk; simp [mapGet]
    · simp [mapGet, hk, ih, Ne.symm hk]

/-- On a missing key, Map.set appends the new entry. -/
theorem mapSet_append_of_get_none {cache : ModifierCache} {key : Str}
    (h : mapGet cache key = none) (v : SymbolModifiers) :
    mapSet cache key v = cache ++ [(key, v)] := by
  induction cache with
  | nil => rfl
  | cons entry rest ih =>
    obtain ⟨k, w⟩ := entry
    by_cases hk : k = key
    · subst hk; simp [mapGet] at h
    · simp only [mapGet, hk, if_false, if_neg hk] at h ⊢
      simp [mapSet, hk, ih h]

/-- Deleting the first entry's key removes exactly that entry. -/
theorem mapDelete_cons_self (k : Str) (v : SymbolModifiers) (rest : ModifierCache) :
    mapDelete ((k, v) :: rest) k = rest := by
  simp [mapDelete]

/-- Deleting the first n keys (in insertion order) of a cache with
pairwise-distinct keys drops its first n entries. -/
theorem foldl_mapDelete_take :
    ∀ (cache : ModifierCache) (n : Nat), (cache.map Prod.fst).Nodup →
      ((cache.map Prod.fst).take n).foldl mapDelete cache = cache.drop n := by
  intro cache
  induction cache with
  | nil => intro n _; simp
  | cons entry rest ih =>
    intro n hnodup
    obtain ⟨k, v⟩ := entry
    simp only [List.map_cons, List.nodup_cons] at hnodup
    cases n with
    | zero => simp
    | succ m =>
      simp only [List.map_cons, List.take_succ_cons, List.foldl_cons, List.drop_succ_cons]
      rw [mapDelete_cons_self]
      -- the remaining keys to delete are all in rest, so they never see k again
      exact ih m hnodup.2

/-- C4: extractSymbolModifiersWithCache returns the cached value and an
unchanged cache on a hit; on a miss it returns the freshly extracted
value, appends it under the key built from uri, version, range start and
name, and, whenever the size then exceeds 5000, evicts exactly the 1000
oldest-inserted entries; consequently the cache never exceeds 5000
entries after a call. -/
theorem extractSymbolModifiersWithCache_behavior
    (cache : ModifierCache) (symbol : DocumentSymbol) (document : TextDocument)
    (hnodup : (cache.map Prod.fst).Nodup) (hsize : cache.length ≤ 5000) :
    (∀ v, mapGet cache (getSymbolCacheKey symbol document.version document.uri) = some v →
        extractSymbolModifiersWithCache cache symbol document = (v, cache)) ∧
    (mapGet cache (getSymbolCacheKey symbol document.version document.uri) = none →
        (extractSymbolModifiersWithCache cache symbol document).1 =
          extractSymbolModifiers symbol document ∧
        (extractSymbolModifiersWithCache cache symbol document).2 =
          (if 5000 <
              (cache ++ [(getSymbolCacheKey symbol document.version document.uri,
                extractSymbolModifiers symbol document)]).length then
            (cache ++ [(getSymbolCacheKey symbol document.version document.uri,
              extractSymbolModifiers symbol document)]).drop 1000
           else
            cache ++ [(getSymbolCacheKey symbol document.version document.uri,
              extractSymbolModifiers symbol document)])) ∧
    (extractSymbolModifiersWithCache cache symbol document).2.length ≤ 5000 := by
  cases hget : mapGet cache (getSymbolCacheKey symbol document.version document.uri) with
  | some v =>
    refine ⟨?_, ?_, ?_⟩
    · intro w hw
      injection hw with hw
      subst hw
      simp [extractSymbolModifiersWithCache, hget]
    · intro hnone
      exact absurd hnone (by simp)
    · simp [extractSymbolModifiersWithCache, hget, hsize]
  | none =>
    have happend := mapSet_append_of_get_none hget (extractSymbolModifiers symbol document)
    have hkey : getSymbolCacheKey symbol document.version document.uri ∉
        cache.map Prod.fst := (mapGet_eq_none_iff _ _).mp hget
    have hnodup1 : ((cache ++ [(getSymbolCacheKey symbol document.version document.uri,
        extractSymbolModifiers symbol document)]).map Prod.fst).Nodup := by
      simp [List.nodup_append, hnodup, hkey]
    have hmain : extractSymbolModifiersWithCache cache symbol document =
        (extractSymbolModifiers symbol document,
          if 5000 <
              (cache ++ [(getSymbolCacheKey symbol document.version document.uri,
                extractSymbolModifiers symbol document)]).length then
            (cache ++ [(getSymbolCacheKey symbol document.version document.uri,
              extractSymbolModifiers symbol document)]).drop 1000
          else
            cache ++ [(getSymbolCacheKey symbol document.version document.uri,
              extractSymbolModifiers symbol document)]) := by
      unfold extractSymbolModifiersWithCache
      simp only [hget, happend]
      rw [foldl_mapDelete_take _ 1000 hnodup1]
    refine ⟨?_, ?_, ?_⟩
    · intro w hw
      exact absurd hw (by simp)
    · intro _
      rw [hmain]
      exact ⟨rfl, rfl⟩
    · rw [hmain]
      dsimp only
      split <;>
        simp only [List.length_append, List.length_drop, List.length_singleton] at * <;>
        omega

/-- Witness for C4: a call on the empty cache inserts the extracted value
under its key. -/
theorem extractSymbolModifiersWithCache_behavior_witness :
    ((([] : ModifierCache).map Prod.fst).Nodup ∧ ([] : ModifierCache).length ≤ 5000) ∧
    extractSymbolModifiersWithCache [] rubySymbol rubyDocument =
      (extractSymbolModifiers rubySymbol rubyDocument,
        [(getSymbolCacheKey rubySymbol rubyDocument.version rubyDocument.uri,
          extractSymbolModifiers rubySymbol rubyDocument)]) := by
  refine ⟨⟨by simp, by simp⟩, ?_⟩
  have h := extractSymbolModifiersWithCache_behavior [] rubySymbol rubyDocument
    (by simp) (by simp)
  obtain ⟨h1, h2⟩ := (h.2.1 (by rfl))
  refine Prod.ext ?_ ?_
  · exact h1
  · rw [h2]; rfl

-- #endregion

-- #region C7: tree item id uniqueness and stability

/-- The decimal digit characters are never a dash. -/
theorem digitChar_ne_dash (d : Nat) : digitChar d ≠ '-' := by
  unfold digitChar
  split_ifs <;> decide

/-- digitVal inverts digitChar on digits. -/
theorem digitVal_digitChar {d : Nat} (h : d < 10) : digitVal (digitChar d) = d := by
  interval_cases d <;> decide

/-- listVal consumes a trailing digit. -/
theorem listVal_append_digit (cs : List Char) (c : Char) :
    listVal (cs ++ [c]) = listVal cs * 10 + digitVal c := by
  simp [listVal, List.foldl_append]

/-- The decimal expansion evaluates back to its number. -/
theorem toDecAux_val : ∀ (fuel n : Nat), n < fuel → listVal (toDecAux fuel n) = n := by
  intro fuel
  induction fuel with
  | zero => intro n h; omega
  | succ f ih =>
    intro n h
    unfold toDecAux
    by_cases h10 : n < 10
    · rw [if_pos h10]
      simp [listVal, digitVal_digitChar h10]
    · rw [if_neg h10]
      rw [listVal_append_digit, ih (n / 10) (by omega),
        digitVal_digitChar (show n % 10 < 10 by omega)]
      omega

/-- Decimal renderings of distinct numbers differ. -/
theorem decChars_injective {a b : Nat} (h : decChars a = decChars b) : a = b := by
  have ha := toDecAux_val (a + 1) a (by omega)
  have hb := toDecAux_val (b + 1) b (by omega)
  unfold decChars at h
  rw [h] at ha
  omega

/-- A decimal rendering contains no dash. -/
theorem dash_not_mem_toDecAux : ∀ (fuel n : Nat), '-' ∉ toDecAux fuel n := by
  intro fuel
  induction fuel with
  | zero => intro n; simp [toDecAux]
  | succ f ih =>
    intro n
    unfold toDecAux
    by_cases h10 : n < 10
    · rw [if_pos h10]
      intro hmem
      rw [List.mem_singleton] at hmem
      exact digitChar_ne_dash n hmem.symm
    · rw [if_neg h10]
      intro hmem
      rcases List.mem_append.mp hmem with hmem | hmem
      · exact ih _ hmem
      · rw [List.mem_singleton] at hmem
        exact digitChar_ne_dash _ hmem.symm

/-- A decimal rendering contains no dash. -/
theorem dash_not_mem_decChars (n : Nat) : '-' ∉ decChars n :=
  dash_not_mem_toDecAux _ _

/-- Splitting two equal dash-joined strings at their last dash: if the
suffixes are dash-free, prefixes and suffixes agree separately. -/
theorem splitDash : ∀ (p1 p2 s1 s2 : List Char), '-' ∉ s1 → '-' ∉ s2 →
    p1 ++ '-' :: s1 = p2 ++ '-' :: s2 → p1 = p2 ∧ s1 = s2 := by
  intro p1
  induction p1 with
  | nil =>
    intro p2 s1 s2 h1 h2 heq
    cases p2 with
    | nil =>
      simp only [List.nil_append] at heq
      injection heq with _ htail
      exact ⟨rfl, htail⟩
    | cons c cs =>
      simp only [List.nil_append, List.cons_append] at heq
      injection heq with hc htail
      exfalso
      apply h1
      rw [htail]
      exact List.mem_append_right _ (List.mem_cons_self _ _)
  | cons c cs ih =>
    intro p2 s1 s2 h1 h2 heq
    cases p2 with
    | nil =>
      simp only [List.cons_append, List.nil_append] at heq
      injection heq with hc htail
      exfalso
      apply h2
      rw [← htail]
      exact List.mem_append_right _ (List.mem_cons_self _ _)
    | cons d ds =>
      simp only [List.cons_append] at heq
      injection heq with hc htail
      obtain ⟨hp, hs⟩ := ih ds s1 s2 h1 h2 htail
      exact ⟨by rw [hc, hp], hs⟩

/-- The id-assignment loop produces one id per item. -/
theorem assignIdsGo_length : ∀ (pairs : List (Str × Str)) (seen : List Str),
    (assignIdsGo seen pairs).length = pairs.length := by
  intro pairs
  induction pairs with
  | nil => intro seen; rfl
  | cons p rest ih => intro seen; simp [assignIdsGo, ih]

/-- Each assigned id is the item's partial id together with one plus the
number of earlier items (seen ones included) sharing that partial id. -/
theorem assignIdsGo_getElem? :
    ∀ (pairs : List (Str × Str)) (seen : List Str) (i : Nat),
      (assignIdsGo seen pairs)[i]? =
        (pairs[i]?).map fun p =>
          getUniqueTreeItemId (partIdOf p)
            ((seen ++ (pairs.take i).map partIdOf).count (partIdOf p) + 1) := by
  intro pairs
  induction pairs with
  | nil => intro seen i; simp [assignIdsGo]
  | cons p rest ih =>
    intro seen i
    cases i with
    | zero => simp [assignIdsGo]
    | succ j =>
      simp only [assignIdsGo, List.getElem?_cons_succ]
      rw [ih (seen ++ [partIdOf p]) j]
      simp [List.append_assoc]

/-- The count of a value in a longer prefix strictly grows past an
occurrence of that value. -/
theorem count_take_lt : ∀ (l : List Str) (i j : Nat) (q : Str), i < j →
    l[i]? = some q → (l.take i).count q < (l.take j).count q := by
  intro l
  induction l with
  | nil => intro i j q hij hq; simp at hq
  | cons a as ih =>
    intro i j q hij hq
    cases i with
    | zero =>
      rw [List.getElem?_cons_zero] at hq
      injection hq with hq
      subst hq
      cases j with
      | zero => omega
      | succ m =>
        simp only [List.take_zero, List.count_nil, List.take_succ_cons, List.count_cons_self]
        omega
    | succ i' =>
      cases j with
      | zero => omega
      | succ m =>
        rw [List.getElem?_cons_succ] at hq
        have hrec := ih i' m q (by omega) hq
        simp only [List.take_succ_cons]
        by_cases hqa : q = a
        · subst hqa
          simp only [List.count_cons_self]
          omega
        · rw [List.count_cons_of_ne hqa, List.count_cons_of_ne hqa]
          exact hrec

/-- C7: the ids assigned to a flattened item list are fully characterized
by the item's kind id, its display name, and the number of earlier items
sharing the same partial id (order-of-appearance counting), and any two
items of the same snapshot receive distinct ids — even items with
identical kind and display name.  The characterization makes an unchanged
(kind, name, ordinal occurrence) item keep its id across re-synthesis. -/
theorem assignIds_unique_and_stable (pairs : List (Str × Str)) :
    (∀ i : Nat,
      (assignIds pairs)[i]? =
        (pairs[i]?).map fun p =>
          getUniqueTreeItemId (partIdOf p)
            (((pairs.take i).map partIdOf).count (partIdOf p) + 1)) ∧
    (assignIds pairs).Nodup := by
  have hchar : ∀ i : Nat,
      (assignIds pairs)[i]? =
        (pairs[i]?).map fun p =>
          getUniqueTreeItemId (partIdOf p)
            (((pairs.take i).map partIdOf).count (partIdOf p) + 1) := by
    intro i
    rw [show assignIds pairs = assignIdsGo [] pairs from rfl, assignIdsGo_getElem?]
    simp
  refine ⟨hchar, ?_⟩
  rw [List.nodup_iff_getElem?_ne_getElem?]
  intro i j hij hj heq
  have hlen : (assignIds pairs).length = pairs.length := assignIdsGo_length pairs []
  have hj' : j < pairs.length := by omega
  have hi' : i < pairs.length := by omega
  have hpi := List.getElem?_eq_getElem hi'
  have hpj := List.getElem?_eq_getElem hj'
  rw [hchar i, hchar j, hpi, hpj] at heq
  simp only [Option.map_some'] at heq
  injection heq with heq
  unfold getUniqueTreeItemId at heq
  obtain ⟨hpart, hdec⟩ :=
    splitDash _ _ _ _ (dash_not_mem_decChars _) (dash_not_mem_decChars _) heq
  have hn := decChars_injective hdec
  have hq : (pairs.map partIdOf)[i]? = some (partIdOf pairs[i]) := by
    rw [List.getElem?_map, hpi]
    rfl
  have hlt := count_take_lt (pairs.map partIdOf) i j (partIdOf pairs[i]) hij hq
  rw [List.map_take, List.map_take] at hn
  rw [← hpart] at hn
  omega

-- #endregion
